import Mathlib

/-!
Verification of the pagination-window generator of this repository
(`src/hooks/usePagination.js`), a shallow embedding of the hook's pure
computation: total-page calculation, page-item generation, ellipsis marking,
the left-to-right collapse filter, and next/prev navigation handlers.

JavaScript numbers are modelled as `Nat` (all quantities in scope are
non-negative integers; `page - 1` at `page = 0` is `-1` in JS and `0` here,
and neither ever equals a page number `≥ 1`, so the truncation is harmless).
A JS array read `a[i]` that is out of bounds yields `undefined`, and reading
`.type` on it throws; that failure is modelled by `Option`, with `none`
standing for the thrown `TypeError`.
-/

namespace Pagination

/-- The `type` field of a page item: `'page'`, `'start-ellipsis'` or
`'end-ellipsis'`. -/
inductive ItemType where
  | page
  | startEllipsis
  | endEllipsis
deriving DecidableEq, Repr

/-- One entry of the `items` array built at lines 25-32 of
`usePagination.js`.  The `onClick` closure is `() => onChange(item)`: it
carries no data beyond the `page` field it captures, so it is omitted from
the embedding. -/
structure Item where
  type : ItemType
  isCurrent : Bool
  page : Nat
deriving DecidableEq, Repr

/-- Line 21: `const totalPage = Math.ceil(total / pageSize)`.
For naturals with `pageSize > 0`, `Math.ceil(total / pageSize)` is
`(total + pageSize - 1) / pageSize` (`pageSize = 0` gives `Infinity`/`NaN`
in JS and is outside the modelled domain). -/
def totalPageOf (total pageSize : Nat) : Nat :=
  (total + pageSize - 1) / pageSize

/-- Lines 25-32: `[...Array(totalPage).keys()].map(key => key + 1).map(item
=> ({type: 'page', isCurrent: page === item, page: item, onClick: ...}))`. -/
def items (totalPage page : Nat) : List Item :=
  ((List.range totalPage).map (fun key => key + 1)).map
    (fun item => { type := .page, isCurrent := page == item, page := item })

/-- The body of the `map` at lines 35-52: keep the first page, the last
page, the current page and its two neighbours; retag every other page as an
ellipsis marker (`end` beyond the current page, `start` before it). -/
def markItem (totalPage page : Nat) (item : Item) : Item :=
  if item.page = totalPage ∨ item.page = 1 ∨ item.page = page
      ∨ item.page = page + 1 ∨ item.page = page - 1 then
    item
  else
    { item with type := if item.page > page then .endEllipsis else .startEllipsis }

/-- Lines 35-52: `const markedItems = items.map(...)`. -/
def markedItems (totalPage page : Nat) : List Item :=
  (items totalPage page).map (markItem totalPage page)

/-- The filter callback at lines 56-66.  For a `start-ellipsis` it reads
`markedItems[index + 1].type`, for an `end-ellipsis` it reads
`markedItems[index - 1].type`; a read through an out-of-bounds index
(`undefined.type` in JS, a thrown `TypeError`) is `none`. -/
def collapseKeep (m : List Item) (index : Nat) (item : Item) : Option Bool :=
  match item.type with
  | .startEllipsis =>
      (m[index + 1]?).map (fun next => decide ¬(next.type = .startEllipsis))
  | .endEllipsis =>
      if index = 0 then none
      else (m[index - 1]?).map (fun prev => decide ¬(prev.type = .endEllipsis))
  | .page => some true

/-- `Array.prototype.filter` with an index-aware callback over a fixed
backing array `m`, propagating a thrown access as `none`. -/
def collapseAux (m : List Item) : Nat → List Item → Option (List Item)
  | _, [] => some []
  | index, item :: rest =>
      match collapseKeep m index item with
      | none => none
      | some keep =>
          match collapseAux m (index + 1) rest with
          | none => none
          | some tail => some (if keep then item :: tail else tail)

/-- Lines 55-66: `const ellipsisItems = markedItems.filter(...)`. -/
def ellipsisItems (totalPage page : Nat) : Option (List Item) :=
  collapseAux (markedItems totalPage page) 0 (markedItems totalPage page)

/-- Lines 71-74: `handleClickNext` computes `page + 1 > totalPage ?
totalPage : page + 1` and passes it to `onChange`; the embedding returns the
value handed to the callback. -/
def handleClickNext (totalPage page : Nat) : Nat :=
  if page + 1 > totalPage then totalPage else page + 1

/-- Lines 80-83: `handleClickPrev` computes `page - 1 < 1 ? 1 : page - 1`
and passes it to `onChange`. -/
def handleClickPrev (page : Nat) : Nat :=
  if page - 1 < 1 then 1 else page - 1

/-- The record returned at lines 92-97 (the two handler closures are the
functions above). -/
structure PaginationResult where
  items : List Item
  totalPage : Nat
deriving DecidableEq, Repr

/-- The whole hook body (lines 13-99).  Note that `ellipsisItems` is
computed eagerly, before `withEllipsis` is consulted, exactly as in the
source; a thrown access poisons the result either way. -/
def usePagination (total pageSize page : Nat) (withEllipsis : Bool) :
    Option PaginationResult :=
  let totalPage := totalPageOf total pageSize
  match ellipsisItems totalPage page with
  | none => none
  | some ell =>
      some { items := if withEllipsis then ell else items totalPage page,
             totalPage := totalPage }

/-- The spec's formula, written from its own words for comparison with the
code: `totalPages = max(1, ceil(totalItems/pageSize))`. -/
def specTotalPages (total pageSize : Nat) : Nat :=
  max 1 ((total + pageSize - 1) / pageSize)

/-- The type a given page number receives in `markedItems` (pure
re-expression of `markItem` on the page item for `p`). -/
def typeAt (totalPage page p : Nat) : ItemType :=
  if p = totalPage ∨ p = 1 ∨ p = page ∨ p = page + 1 ∨ p = page - 1 then
    .page
  else if p > page then .endEllipsis else .startEllipsis

/-- The item the pipeline holds for page number `p` just before the
collapse filter. -/
def itemAt (totalPage page p : Nat) : Item :=
  { type := typeAt totalPage page p, isCurrent := page == p, page := p }

/-- Whether the collapse filter keeps the item of page number `p`,
expressed on page numbers rather than indices. -/
def keepAt (totalPage page p : Nat) : Bool :=
  match typeAt totalPage page p with
  | .startEllipsis => decide ¬(typeAt totalPage page (p + 1) = .startEllipsis)
  | .endEllipsis => decide ¬(typeAt totalPage page (p - 1) = .endEllipsis)
  | .page => true

/-- The page numbers of the explicit (non-ellipsis) page items of a list. -/
def pagesOf (l : List Item) : List Nat :=
  (l.filter (fun it => it.type == .page)).map Item.page

/-! ### Characterisation of the pipeline -/

lemma items_eq (n cur : Nat) :
    items n cur = (List.range' 1 n).map
      (fun p => { type := .page, isCurrent := cur == p, page := p }) := by
  unfold items
  rw [List.range'_eq_map_range, List.map_map, List.map_map]
  apply List.map_congr_left
  intro a _
  simp [Function.comp, Nat.add_comm 1 a]

lemma markItem_mk (n cur p : Nat) (b : Bool) :
    markItem n cur { type := .page, isCurrent := b, page := p } =
      { type := typeAt n cur p, isCurrent := b, page := p } := by
  simp only [markItem, typeAt]
  split
  · rfl
  · split <;> rfl

lemma markedItems_eq (n cur : Nat) :
    markedItems n cur = (List.range' 1 n).map (itemAt n cur) := by
  unfold markedItems
  rw [items_eq, List.map_map]
  apply List.map_congr_left
  intro p _
  simp only [Function.comp_apply]
  exact markItem_mk n cur p (cur == p)

lemma markedItems_getElem? (n cur i : Nat) (h : i < n) :
    (markedItems n cur)[i]? = some (itemAt n cur (1 + i)) := by
  rw [markedItems_eq, List.getElem?_map, List.getElem?_range' 1 1 h]
  simp

lemma typeAt_ne_page {n cur p : Nat} (h : typeAt n cur p ≠ .page) :
    p ≠ n ∧ p ≠ 1 := by
  unfold typeAt at h
  split at h
  · exact absurd rfl h
  · rename_i hret
    exact ⟨fun hp => hret (Or.inl hp), fun hp => hret (Or.inr (Or.inl hp))⟩

lemma collapseKeep_itemAt (n cur j : Nat) (hj : j < n) :
    collapseKeep (markedItems n cur) j (itemAt n cur (1 + j)) =
      some (keepAt n cur (1 + j)) := by
  simp only [collapseKeep, keepAt, itemAt]
  cases htype : typeAt n cur (1 + j) with
  | page => rfl
  | startEllipsis =>
      have hne : (1 + j : Nat) ≠ n ∧ (1 + j : Nat) ≠ 1 :=
        typeAt_ne_page (by rw [htype]; intro hc; cases hc)
      have hj1 : j + 1 < n := by omega
      rw [markedItems_getElem? n cur (j + 1) hj1]
      rfl
  | endEllipsis =>
      have hne : (1 + j : Nat) ≠ n ∧ (1 + j : Nat) ≠ 1 :=
        typeAt_ne_page (by rw [htype]; intro hc; cases hc)
      have hj0 : j ≠ 0 := by omega
      rw [if_neg hj0, markedItems_getElem? n cur (j - 1) (by omega)]
      have harg : 1 + (j - 1) = 1 + j - 1 := by omega
      simp only [Option.map_some, itemAt, harg]
      rfl

lemma collapseAux_cons (m : List Item) (j : Nat) (a : Item) (l : List Item)
    (keep : Bool) (tail : List Item)
    (h1 : collapseKeep m j a = some keep)
    (h2 : collapseAux m (j + 1) l = some tail) :
    collapseAux m j (a :: l) = some (if keep then a :: tail else tail) := by
  unfold collapseAux
  rw [h1, h2]

lemma collapseAux_eq (n cur : Nat) :
    ∀ (k j : Nat), j + k = n →
      collapseAux (markedItems n cur) j ((List.range' (1 + j) k).map (itemAt n cur)) =
        some (((List.range' (1 + j) k).filter (keepAt n cur)).map (itemAt n cur)) := by
  intro k
  induction k with
  | zero =>
      intro j hj
      simp [collapseAux]
  | succ k ih =>
      intro j hj
      have ih' : collapseAux (markedItems n cur) (j + 1)
          ((List.range' (1 + j + 1) k).map (itemAt n cur)) =
          some (((List.range' (1 + j + 1) k).filter (keepAt n cur)).map (itemAt n cur)) :=
        ih (j + 1) (by omega)
      rw [List.range'_succ]
      simp only [List.map_cons, List.filter_cons]
      rw [collapseAux_cons _ _ _ _ _ _ (collapseKeep_itemAt n cur j (by omega)) ih']
      by_cases hk : keepAt n cur (1 + j) = true
      · simp [hk]
      · simp [hk]

/-- The value the collapse filter produces when no access goes out of
bounds: the kept page numbers of `[1..n]`, each turned into its marked
item. -/
def collapsed (n cur : Nat) : List Item :=
  ((List.range' 1 n).filter (keepAt n cur)).map (itemAt n cur)

lemma ellipsisItems_eq (n cur : Nat) :
    ellipsisItems n cur = some (collapsed n cur) := by
  have h := collapseAux_eq n cur n 0 (by omega)
  unfold ellipsisItems collapsed
  nth_rewrite 2 [markedItems_eq]
  simpa using h

/-! ### Arithmetic characterisation of marking and keeping -/

lemma typeAt_one (n cur : Nat) : typeAt n cur 1 = .page := by
  unfold typeAt
  rw [if_pos (Or.inr (Or.inl rfl))]

lemma typeAt_last (n cur : Nat) : typeAt n cur n = .page := by
  unfold typeAt
  rw [if_pos (Or.inl rfl)]

lemma typeAt_start_iff (n cur p : Nat) (hc : cur ≤ n) (hp : 1 ≤ p) :
    typeAt n cur p = .startEllipsis ↔ 2 ≤ p ∧ p + 2 ≤ cur := by
  unfold typeAt
  split
  · rename_i h
    constructor
    · intro hh; exact ItemType.noConfusion hh
    · intro hh; exact absurd hh (by omega)
  · rename_i h
    split
    · rename_i h2
      constructor
      · intro hh; exact ItemType.noConfusion hh
      · intro hh; exact absurd hh (by omega)
    · rename_i h2
      constructor
      · intro _; omega
      · intro _; rfl

lemma typeAt_end_iff (n cur p : Nat) (hp : p ≤ n) :
    typeAt n cur p = .endEllipsis ↔ cur + 2 ≤ p ∧ p + 1 ≤ n := by
  unfold typeAt
  split
  · rename_i h
    constructor
    · intro hh; exact ItemType.noConfusion hh
    · intro hh; exact absurd hh (by omega)
  · rename_i h
    split
    · rename_i h2
      constructor
      · intro _; omega
      · intro _; rfl
    · rename_i h2
      constructor
      · intro hh; exact ItemType.noConfusion hh
      · intro hh; exact absurd hh (by omega)

lemma keepAt_of_page {n cur p : Nat} (h : typeAt n cur p = .page) :
    keepAt n cur p = true := by
  unfold keepAt
  rw [h]

lemma keepAt_start (n cur p : Nat) (hc : cur ≤ n) (hp1 : 1 ≤ p) :
    (typeAt n cur p = .startEllipsis ∧ keepAt n cur p = true) ↔
      (2 ≤ p ∧ p + 2 = cur) := by
  constructor
  · rintro ⟨hs, hk⟩
    have h1 := (typeAt_start_iff n cur p hc hp1).1 hs
    unfold keepAt at hk
    rw [hs] at hk
    have h2 : ¬(typeAt n cur (p + 1) = .startEllipsis) := of_decide_eq_true hk
    rw [typeAt_start_iff n cur (p + 1) hc (by omega)] at h2
    omega
  · rintro ⟨h2, h3⟩
    have hs : typeAt n cur p = .startEllipsis :=
      (typeAt_start_iff n cur p hc hp1).2 (by omega)
    refine ⟨hs, ?_⟩
    unfold keepAt
    rw [hs]
    have hnext : ¬(typeAt n cur (p + 1) = .startEllipsis) := by
      rw [typeAt_start_iff n cur (p + 1) hc (by omega)]
      omega
    exact decide_eq_true hnext

lemma keepAt_end (n cur p : Nat) (hp2 : p ≤ n) :
    (typeAt n cur p = .endEllipsis ∧ keepAt n cur p = true) ↔
      (p = cur + 2 ∧ p + 1 ≤ n) := by
  constructor
  · rintro ⟨hs, hk⟩
    have h1 := (typeAt_end_iff n cur p hp2).1 hs
    unfold keepAt at hk
    rw [hs] at hk
    have h2 : ¬(typeAt n cur (p - 1) = .endEllipsis) := of_decide_eq_true hk
    rw [typeAt_end_iff n cur (p - 1) (by omega)] at h2
    omega
  · rintro ⟨h2, h3⟩
    have hs : typeAt n cur p = .endEllipsis :=
      (typeAt_end_iff n cur p hp2).2 (by omega)
    refine ⟨hs, ?_⟩
    unfold keepAt
    rw [hs]
    have hprev : ¬(typeAt n cur (p - 1) = .endEllipsis) := by
      rw [typeAt_end_iff n cur (p - 1) (by omega)]
      omega
    exact decide_eq_true hprev

/-! ### Counting helpers -/

lemma countP_le_one_of_unique {q : Nat → Bool} {a : Nat} :
    ∀ {l : List Nat}, l.Nodup → (∀ x ∈ l, q x = true → x = a) → l.countP q ≤ 1 := by
  intro l
  induction l with
  | nil => intro _ _; simp
  | cons b t ih =>
      intro hnd huniq
      rw [List.countP_cons]
      by_cases hq : q b = true
      · have hb : b = a := huniq b (List.mem_cons_self b t) hq
        have ht : t.countP q = 0 := by
          rw [List.countP_eq_zero]
          intro x hx hqx
          have hxa : x = a := huniq x (List.mem_cons_of_mem b hx) hqx
          have hnot : b ∉ t := (List.nodup_cons.1 hnd).1
          rw [hb, ← hxa] at hnot
          exact hnot hx
        simp [ht, hq]
      · have hz : (if q b then 1 else 0) = 0 := by simp [hq]
        rw [hz]
        have := ih (List.nodup_cons.1 hnd).2
          (fun x hx hqx => huniq x (List.mem_cons_of_mem b hx) hqx)
        omega

lemma countP_eq_one_of_unique {q : Nat → Bool} {a : Nat} {l : List Nat}
    (hnd : l.Nodup) (ha : a ∈ l) (hqa : q a = true)
    (huniq : ∀ x ∈ l, q x = true → x = a) : l.countP q = 1 := by
  have h1 : l.countP q ≤ 1 := countP_le_one_of_unique hnd huniq
  have h2 : 0 < l.countP q := List.countP_pos_iff.2 ⟨a, ha, hqa⟩
  omega

/-! ### Marker counts in the collapsed output -/

lemma count_start (n cur : Nat) (h1 : 1 ≤ cur) (h2 : cur ≤ n) :
    (collapsed n cur).countP (fun it => it.type == ItemType.startEllipsis) =
      if 4 ≤ cur then 1 else 0 := by
  unfold collapsed
  rw [List.countP_map, List.countP_filter]
  by_cases hc : 4 ≤ cur
  · rw [if_pos hc]
    apply countP_eq_one_of_unique (a := cur - 2) (List.nodup_range' 1 n)
    · rw [List.mem_range'_1]; omega
    · have hh := (keepAt_start n cur (cur - 2) h2 (by omega)).2 ⟨by omega, by omega⟩
      simp [Function.comp, itemAt, hh.1, hh.2]
    · intro x hx hqx
      rw [List.mem_range'_1] at hx
      simp only [Function.comp, itemAt, Bool.and_eq_true, beq_iff_eq] at hqx
      have := (keepAt_start n cur x h2 (by omega)).1 ⟨hqx.1, hqx.2⟩
      omega
  · rw [if_neg hc]
    rw [List.countP_eq_zero]
    intro x hx hqx
    rw [List.mem_range'_1] at hx
    simp only [Function.comp, itemAt, Bool.and_eq_true, beq_iff_eq] at hqx
    have := (keepAt_start n cur x h2 (by omega)).1 ⟨hqx.1, hqx.2⟩
    omega

lemma count_end (n cur : Nat) (h1 : 1 ≤ cur) (h2 : cur ≤ n) :
    (collapsed n cur).countP (fun it => it.type == ItemType.endEllipsis) =
      if cur + 3 ≤ n then 1 else 0 := by
  unfold collapsed
  rw [List.countP_map, List.countP_filter]
  by_cases hc : cur + 3 ≤ n
  · rw [if_pos hc]
    apply countP_eq_one_of_unique (a := cur + 2) (List.nodup_range' 1 n)
    · rw [List.mem_range'_1]; omega
    · have hh := (keepAt_end n cur (cur + 2) (by omega)).2 ⟨rfl, by omega⟩
      simp [Function.comp, itemAt, hh.1, hh.2]
    · intro x hx hqx
      rw [List.mem_range'_1] at hx
      simp only [Function.comp, itemAt, Bool.and_eq_true, beq_iff_eq] at hqx
      have := (keepAt_end n cur x (by omega)).1 ⟨hqx.1, hqx.2⟩
      omega
  · rw [if_neg hc]
    rw [List.countP_eq_zero]
    intro x hx hqx
    rw [List.mem_range'_1] at hx
    simp only [Function.comp, itemAt, Bool.and_eq_true, beq_iff_eq] at hqx
    have := (keepAt_end n cur x (by omega)).1 ⟨hqx.1, hqx.2⟩
    omega

lemma any_start_iff (n cur : Nat) (h1 : 1 ≤ cur) (h2 : cur ≤ n) :
    (markedItems n cur).any (fun it => it.type == ItemType.startEllipsis) = true ↔
      4 ≤ cur := by
  rw [markedItems_eq, List.any_eq_true]
  constructor
  · rintro ⟨it, hit, hq⟩
    rw [List.mem_map] at hit
    obtain ⟨p, hp, rfl⟩ := hit
    rw [List.mem_range'_1] at hp
    simp only [itemAt, beq_iff_eq] at hq
    have := (typeAt_start_iff n cur p h2 (by omega)).1 hq
    omega
  · intro hc
    refine ⟨itemAt n cur 2, List.mem_map.2 ⟨2, ?_, rfl⟩, ?_⟩
    · rw [List.mem_range'_1]; omega
    · simp only [itemAt, beq_iff_eq]
      exact (typeAt_start_iff n cur 2 h2 (by omega)).2 (by omega)

lemma any_end_iff (n cur : Nat) (h1 : 1 ≤ cur) (h2 : cur ≤ n) :
    (markedItems n cur).any (fun it => it.type == ItemType.endEllipsis) = true ↔
      cur + 3 ≤ n := by
  rw [markedItems_eq, List.any_eq_true]
  constructor
  · rintro ⟨it, hit, hq⟩
    rw [List.mem_map] at hit
    obtain ⟨p, hp, rfl⟩ := hit
    rw [List.mem_range'_1] at hp
    simp only [itemAt, beq_iff_eq] at hq
    have := (typeAt_end_iff n cur p (by omega)).1 hq
    omega
  · intro hc
    refine ⟨itemAt n cur (cur + 2), List.mem_map.2 ⟨cur + 2, ?_, rfl⟩, ?_⟩
    · rw [List.mem_range'_1]; omega
    · simp only [itemAt, beq_iff_eq]
      exact (typeAt_end_iff n cur (cur + 2) (by omega)).2 (by omega)

/-! ### Order of the explicit page items in the collapsed output -/

lemma pagesOf_collapsed (n cur : Nat) :
    pagesOf (collapsed n cur) =
      (List.range' 1 n).filter
        (fun p => (typeAt n cur p == ItemType.page) && keepAt n cur p) := by
  unfold pagesOf collapsed
  rw [List.filter_map, List.filter_filter, List.map_map]
  have hid : ∀ l : List Nat, l.map (Item.page ∘ itemAt n cur) = l := fun l =>
    List.map_id'' (fun x => rfl) l
  rw [hid]
  rfl

lemma pagesOf_sorted (n cur : Nat) :
    List.Chain' (· < ·) (pagesOf (collapsed n cur)) := by
  rw [pagesOf_collapsed]
  exact (List.Pairwise.sublist (List.filter_sublist _)
    (List.pairwise_lt_range' 1 n)).chain'

lemma pagesOf_head (n cur : Nat) (hn : 1 ≤ n) :
    (pagesOf (collapsed n cur)).head? = some 1 := by
  rw [pagesOf_collapsed]
  obtain ⟨m, rfl⟩ : ∃ m, n = m + 1 := ⟨n - 1, by omega⟩
  rw [List.range'_succ]
  have h1 : ((typeAt (m + 1) cur 1 == ItemType.page) && keepAt (m + 1) cur 1) = true := by
    rw [typeAt_one, keepAt_of_page (typeAt_one _ _)]
    rfl
  simp only [List.filter_cons, h1, if_true, List.head?_cons]

lemma pagesOf_getLast (n cur : Nat) (hn : 1 ≤ n) :
    (pagesOf (collapsed n cur)).getLast? = some n := by
  rw [pagesOf_collapsed]
  obtain ⟨m, rfl⟩ : ∃ m, n = m + 1 := ⟨n - 1, by omega⟩
  rw [List.range'_1_concat, List.filter_append]
  have h1m : 1 + m = m + 1 := Nat.add_comm 1 m
  rw [h1m]
  have h1 : ((typeAt (m + 1) cur (m + 1) == ItemType.page) && keepAt (m + 1) cur (m + 1)) = true := by
    rw [typeAt_last, keepAt_of_page (typeAt_last _ _)]
    rfl
  simp only [List.filter_cons, List.filter_nil, h1, if_true]
  rw [List.getLast?_concat]

/-! ### Claims -/

/-- C1 (counterexample): at `total = 0, pageSize = 20` the code computes
`totalPage = 0`, while the spec's `max(1, ceil(totalItems/pageSize))`
is `1`; the claimed equality fails. -/
theorem totalPage_spec_counterexample :
    totalPageOf 0 20 = 0 ∧ specTotalPages 0 20 = 1 ∧
      totalPageOf 0 20 ≠ specTotalPages 0 20 := by
  decide

/-- C1 (amended): for every positive `totalItems` and positive `pageSize`,
`totalPage = ceil(totalItems/pageSize)` agrees with
`max(1, ceil(totalItems/pageSize))` and is at least 1; the floor at 1 only
matters at `totalItems = 0`, where the code returns 0 instead. -/
theorem totalPage_eq_spec_of_pos (total pageSize : Nat)
    (ht : 1 ≤ total) (hp : 1 ≤ pageSize) :
    totalPageOf total pageSize = specTotalPages total pageSize ∧
    1 ≤ totalPageOf total pageSize := by
  have h1 : 1 ≤ (total + pageSize - 1) / pageSize := by
    rw [Nat.le_div_iff_mul_le hp]
    omega
  refine ⟨?_, h1⟩
  unfold totalPageOf specTotalPages
  rw [Nat.max_eq_right h1]

/-- Witness for C1's amended theorem at `total = 200, pageSize = 18`. -/
theorem totalPage_eq_spec_of_pos_witness :
    totalPageOf 200 18 = specTotalPages 200 18 ∧ 1 ≤ totalPageOf 200 18 :=
  totalPage_eq_spec_of_pos 200 18 (by decide) (by decide)

/-- C2 (counterexample): at `total = 0, pageSize = 20, currentPage = 1,
withEllipsis = true` the hook returns `totalPage = 0` and an empty item
list, not `totalPage = 1` with a single current page item. -/
theorem zero_total_counterexample :
    usePagination 0 20 1 true = some { items := [], totalPage := 0 } ∧
      (usePagination 0 20 1 true).map PaginationResult.totalPage ≠ some 1 := by
  decide

/-- C2 (amended): for `total = 0` and any positive `pageSize`, any
`currentPage` and either `withEllipsis` value, the hook returns
`totalPage = 0` and an empty item list (so in particular no ellipsis
markers). -/
theorem zero_total_empty (pageSize cur : Nat) (w : Bool) (hp : 1 ≤ pageSize) :
    usePagination 0 pageSize cur w = some { items := [], totalPage := 0 } := by
  have h0 : totalPageOf 0 pageSize = 0 := by
    unfold totalPageOf
    exact Nat.div_eq_of_lt (by omega)
  simp [usePagination, h0, ellipsisItems_eq, collapsed, items]

/-- Witness for C2's amended theorem at `pageSize = 20, currentPage = 1,
withEllipsis = true`. -/
theorem zero_total_empty_witness :
    usePagination 0 20 1 true = some { items := [], totalPage := 0 } :=
  zero_total_empty 20 1 true (by decide)

/-- C3 (counterexample): at `totalPage = 4` (input `total = 4, pageSize =
1`) with `currentPage = 1` and `withEllipsis = true` — within the claimed
range `totalPage ≤ 5`, `1 ≤ currentPage ≤ totalPage` — page 3 is collapsed
into an end-ellipsis, so an ellipsis marker does appear. -/
theorem small_totalPage_ellipsis_counterexample :
    usePagination 4 1 1 true =
      some { items :=
               [{ type := .page, isCurrent := true, page := 1 },
                { type := .page, isCurrent := false, page := 2 },
                { type := .endEllipsis, isCurrent := false, page := 3 },
                { type := .page, isCurrent := false, page := 4 }],
             totalPage := 4 } ∧
    ((usePagination 4 1 1 true).map
        (fun r => r.items.any (fun it => !(it.type == ItemType.page)))) = some true := by
  decide

/-- C3 (amended): for `totalPage ≤ 3` and `1 ≤ currentPage ≤ totalPage`
the collapse never leaves a marker: the filtered list exists and every item
in it is a plain page item, regardless of `withEllipsis`. -/
theorem no_ellipsis_le_three (tp cur : Nat)
    (h3 : tp ≤ 3) (h1 : 1 ≤ cur) (h2 : cur ≤ tp) :
    (ellipsisItems tp cur).isSome = true ∧
    (((ellipsisItems tp cur).getD []).all
        (fun it => it.type == ItemType.page)) = true := by
  interval_cases tp <;> interval_cases cur <;> decide

/-- Witness for C3's amended theorem at `totalPage = 3, currentPage = 2`. -/
theorem no_ellipsis_le_three_witness :
    (ellipsisItems 3 2).isSome = true ∧
    (((ellipsisItems 3 2).getD []).all
        (fun it => it.type == ItemType.page)) = true :=
  no_ellipsis_le_three 3 2 (by decide) (by decide) (by decide)

/-- C7: `handleClickNext` hands `min(currentPage + 1, totalPage)` to the
page-change callback and `handleClickPrev` hands `max(currentPage - 1, 1)`;
at the boundaries both are no-ops rather than errors. -/
theorem handlers_clamp (totalPage cur : Nat) :
    handleClickNext totalPage cur = min (cur + 1) totalPage ∧
    handleClickPrev cur = max (cur - 1) 1 ∧
    handleClickNext totalPage totalPage = totalPage ∧
    handleClickPrev 1 = 1 := by
  unfold handleClickNext handleClickPrev
  refine ⟨?_, ?_, ?_, ?_⟩ <;> split <;> omega

/-- C8: the spec scenario `total = 200, pageSize = 18, currentPage = 1,
withEllipsis = true` yields `totalPage = 12` and the item sequence
`[Page 1 (current), Page 2, end-ellipsis, Page 12]`. -/
theorem scenario_200_18_1 :
    usePagination 200 18 1 true =
      some { items :=
               [{ type := .page, isCurrent := true, page := 1 },
                { type := .page, isCurrent := false, page := 2 },
                { type := .endEllipsis, isCurrent := false, page := 3 },
                { type := .page, isCurrent := false, page := 12 }],
             totalPage := 12 } := by
  decide

/-- C4: before collapsing, the item of page `p` is kept as an unmodified
page item exactly when `p` is 1, `totalPage`, `currentPage`, or one of its
two neighbours; every other page is retagged as a start-ellipsis when its
number is below `currentPage` and as an end-ellipsis otherwise. -/
theorem marked_retention (n cur : Nat) (h1 : 1 ≤ cur) (h2 : cur ≤ n) :
    ∀ p, 1 ≤ p → p ≤ n →
      (markedItems n cur)[p - 1]? =
        some (if p = 1 ∨ p = n ∨ p = cur ∨ p = cur - 1 ∨ p = cur + 1
              then { type := ItemType.page, isCurrent := cur == p, page := p }
              else { type := if p < cur then ItemType.startEllipsis
                             else ItemType.endEllipsis,
                     isCurrent := cur == p, page := p }) := by
  intro p hp1 hp2
  rw [markedItems_getElem? n cur (p - 1) (by omega)]
  have hp' : 1 + (p - 1) = p := by omega
  rw [hp']
  unfold itemAt typeAt
  by_cases hret : p = n ∨ p = 1 ∨ p = cur ∨ p = cur + 1 ∨ p = cur - 1
  · have hclaim : p = 1 ∨ p = n ∨ p = cur ∨ p = cur - 1 ∨ p = cur + 1 := by tauto
    rw [if_pos hret, if_pos hclaim]
  · have hclaim : ¬(p = 1 ∨ p = n ∨ p = cur ∨ p = cur - 1 ∨ p = cur + 1) := by tauto
    rw [if_neg hret, if_neg hclaim]
    by_cases hlt : p < cur
    · have hgt : ¬(p > cur) := by omega
      rw [if_neg hgt, if_pos hlt]
    · have hgt : p > cur := by omega
      rw [if_pos hgt, if_neg hlt]

/-- Witness for C4 at `totalPage = 10, currentPage = 5, p = 3` (a page that
is retagged as a start-ellipsis). -/
theorem marked_retention_witness :
    (markedItems 10 5)[3 - 1]? =
      some (if 3 = 1 ∨ 3 = 10 ∨ 3 = 5 ∨ 3 = 5 - 1 ∨ 3 = 5 + 1
            then { type := ItemType.page, isCurrent := 5 == 3, page := 3 }
            else { type := if 3 < 5 then ItemType.startEllipsis
                           else ItemType.endEllipsis,
                   isCurrent := 5 == 3, page := 3 }) :=
  marked_retention 10 5 (by decide) (by decide) 3 (by decide) (by decide)

/-- C5: after the collapse pass exactly one marker of each kind remains
whenever the corresponding run of markers was non-empty in `markedItems`
(and none otherwise); concretely at `totalPage = 10, currentPage = 5` the
output keeps pages 1, 4, 5, 6, 10 with a single start-ellipsis between 1
and 4 and a single end-ellipsis between 6 and 10. -/
theorem collapse_one_marker_per_run (n cur : Nat) (h1 : 1 ≤ cur) (h2 : cur ≤ n) :
    (ellipsisItems n cur).map
        (fun l => l.countP (fun it => it.type == ItemType.startEllipsis)) =
      some (if (markedItems n cur).any (fun it => it.type == ItemType.startEllipsis)
            then 1 else 0) ∧
    (ellipsisItems n cur).map
        (fun l => l.countP (fun it => it.type == ItemType.endEllipsis)) =
      some (if (markedItems n cur).any (fun it => it.type == ItemType.endEllipsis)
            then 1 else 0) ∧
    ellipsisItems 10 5 =
      some [{ type := .page, isCurrent := false, page := 1 },
            { type := .startEllipsis, isCurrent := false, page := 3 },
            { type := .page, isCurrent := false, page := 4 },
            { type := .page, isCurrent := true, page := 5 },
            { type := .page, isCurrent := false, page := 6 },
            { type := .endEllipsis, isCurrent := false, page := 7 },
            { type := .page, isCurrent := false, page := 10 }] := by
  refine ⟨?_, ?_, by decide⟩
  · rw [ellipsisItems_eq, Option.map_some', count_start n cur h1 h2]
    by_cases hc : 4 ≤ cur
    · rw [if_pos hc, if_pos ((any_start_iff n cur h1 h2).2 hc)]
    · rw [if_neg hc, if_neg (fun h => hc ((any_start_iff n cur h1 h2).1 h))]
  · rw [ellipsisItems_eq, Option.map_some', count_end n cur h1 h2]
    by_cases hc : cur + 3 ≤ n
    · rw [if_pos hc, if_pos ((any_end_iff n cur h1 h2).2 hc)]
    · rw [if_neg hc, if_neg (fun h => hc ((any_end_iff n cur h1 h2).1 h))]

/-- Witness for C5 at `totalPage = 10, currentPage = 5`. -/
theorem collapse_one_marker_per_run_witness :
    (ellipsisItems 10 5).map
        (fun l => l.countP (fun it => it.type == ItemType.startEllipsis)) =
      some (if (markedItems 10 5).any (fun it => it.type == ItemType.startEllipsis)
            then 1 else 0) ∧
    (ellipsisItems 10 5).map
        (fun l => l.countP (fun it => it.type == ItemType.endEllipsis)) =
      some (if (markedItems 10 5).any (fun it => it.type == ItemType.endEllipsis)
            then 1 else 0) ∧
    ellipsisItems 10 5 =
      some [{ type := .page, isCurrent := false, page := 1 },
            { type := .startEllipsis, isCurrent := false, page := 3 },
            { type := .page, isCurrent := false, page := 4 },
            { type := .page, isCurrent := true, page := 5 },
            { type := .page, isCurrent := false, page := 6 },
            { type := .endEllipsis, isCurrent := false, page := 7 },
            { type := .page, isCurrent := false, page := 10 }] :=
  collapse_one_marker_per_run 10 5 (by decide) (by decide)

/-- C6: with `withEllipsis = false` the hook returns the full page list
`[1..totalPage]` untouched, one page item per page number in ascending
order, `isCurrent` exactly at `currentPage`, and no ellipsis markers. -/
theorem full_list_when_no_ellipsis (total pageSize cur : Nat) (hp : 1 ≤ pageSize) :
    usePagination total pageSize cur false =
      some { items := (List.range' 1 (totalPageOf total pageSize)).map
               (fun p => { type := ItemType.page, isCurrent := cur == p, page := p }),
             totalPage := totalPageOf total pageSize } ∧
    ∀ it ∈ items (totalPageOf total pageSize) cur, it.type = ItemType.page := by
  constructor
  · simp [usePagination, ellipsisItems_eq, items_eq]
  · intro it hit
    rw [items_eq] at hit
    obtain ⟨p, hp', rfl⟩ := List.mem_map.1 hit
    rfl

/-- Witness for C6 at `total = 5, pageSize = 2, currentPage = 1`. -/
theorem full_list_when_no_ellipsis_witness :
    usePagination 5 2 1 false =
      some { items := (List.range' 1 (totalPageOf 5 2)).map
               (fun p => { type := ItemType.page, isCurrent := 1 == p, page := p }),
             totalPage := totalPageOf 5 2 } ∧
    ∀ it ∈ items (totalPageOf 5 2) 1, it.type = ItemType.page :=
  full_list_when_no_ellipsis 5 2 1 (by decide)

/-- C9: the collapse filter's neighbour reads stay inside the array for
every `totalPage ≥ 1` and `1 ≤ currentPage ≤ totalPage`: the filter
completes without dereferencing `undefined` (modelled: it returns `some`),
because the first marked item (page 1) and the last (page `totalPage`) are
always retained page items. -/
theorem no_out_of_bounds_access (n cur : Nat)
    (hn : 1 ≤ n) (h1 : 1 ≤ cur) (h2 : cur ≤ n) :
    (ellipsisItems n cur).isSome = true ∧
    (∀ it, (markedItems n cur).head? = some it → it.type = ItemType.page) ∧
    (∀ it, (markedItems n cur).getLast? = some it → it.type = ItemType.page) := by
  refine ⟨?_, ?_, ?_⟩
  · rw [ellipsisItems_eq]; rfl
  · intro it hit
    obtain ⟨m, rfl⟩ : ∃ m, n = m + 1 := ⟨n - 1, by omega⟩
    rw [markedItems_eq, List.head?_map, List.head?_range'] at hit
    simp at hit
    rw [← hit]
    exact typeAt_one _ _
  · intro it hit
    obtain ⟨m, rfl⟩ : ∃ m, n = m + 1 := ⟨n - 1, by omega⟩
    rw [markedItems_eq, List.getLast?_map, List.getLast?_range'] at hit
    simp at hit
    rw [← hit]
    exact typeAt_last _ _

/-- Witness for C9 at `totalPage = 10, currentPage = 5`. -/
theorem no_out_of_bounds_access_witness :
    (ellipsisItems 10 5).isSome = true ∧
    (∀ it, (markedItems 10 5).head? = some it → it.type = ItemType.page) ∧
    (∀ it, (markedItems 10 5).getLast? = some it → it.type = ItemType.page) :=
  no_out_of_bounds_access 10 5 (by decide) (by decide) (by decide)

/-- C10: for `1 ≤ currentPage ≤ totalPage` the collapsed output carries at
most one start-ellipsis and at most one end-ellipsis, and its explicit page
items are strictly increasing, starting at page 1 and ending at page
`totalPage`. -/
theorem output_invariants (n cur : Nat) (h1 : 1 ≤ cur) (h2 : cur ≤ n) :
    ∀ l, ellipsisItems n cur = some l →
      l.countP (fun it => it.type == ItemType.startEllipsis) ≤ 1 ∧
      l.countP (fun it => it.type == ItemType.endEllipsis) ≤ 1 ∧
      List.Chain' (· < ·) (pagesOf l) ∧
      (pagesOf l).head? = some 1 ∧
      (pagesOf l).getLast? = some n := by
  intro l hl
  rw [ellipsisItems_eq, Option.some_inj] at hl
  subst hl
  refine ⟨?_, ?_, pagesOf_sorted n cur,
    pagesOf_head n cur (by omega), pagesOf_getLast n cur (by omega)⟩
  · rw [count_start n cur h1 h2]
    split <;> omega
  · rw [count_end n cur h1 h2]
    split <;> omega

/-- Witness for C10 at `totalPage = 10, currentPage = 5` on the concrete
output list. -/
theorem output_invariants_witness :
    ([{ type := .page, isCurrent := false, page := 1 },
      { type := .startEllipsis, isCurrent := false, page := 3 },
      { type := .page, isCurrent := false, page := 4 },
      { type := .page, isCurrent := true, page := 5 },
      { type := .page, isCurrent := false, page := 6 },
      { type := .endEllipsis, isCurrent := false, page := 7 },
      { type := .page, isCurrent := false, page := 10 }] : List Item).countP
        (fun it => it.type == ItemType.startEllipsis) ≤ 1 ∧
    ([{ type := .page, isCurrent := false, page := 1 },
      { type := .startEllipsis, isCurrent := false, page := 3 },
      { type := .page, isCurrent := false, page := 4 },
      { type := .page, isCurrent := true, page := 5 },
      { type := .page, isCurrent := false, page := 6 },
      { type := .endEllipsis, isCurrent := false, page := 7 },
      { type := .page, isCurrent := false, page := 10 }] : List Item).countP
        (fun it => it.type == ItemType.endEllipsis) ≤ 1 ∧
    List.Chain' (· < ·) (pagesOf
      [{ type := .page, isCurrent := false, page := 1 },
       { type := .startEllipsis, isCurrent := false, page := 3 },
       { type := .page, isCurrent := false, page := 4 },
       { type := .page, isCurrent := true, page := 5 },
       { type := .page, isCurrent := false, page := 6 },
       { type := .endEllipsis, isCurrent := false, page := 7 },
       { type := .page, isCurrent := false, page := 10 }]) ∧
    (pagesOf
      [{ type := .page, isCurrent := false, page := 1 },
       { type := .startEllipsis, isCurrent := false, page := 3 },
       { type := .page, isCurrent := false, page := 4 },
       { type := .page, isCurrent := true, page := 5 },
       { type := .page, isCurrent := false, page := 6 },
       { type := .endEllipsis, isCurrent := false, page := 7 },
       { type := .page, isCurrent := false, page := 10 }]).head? = some 1 ∧
    (pagesOf
      [{ type := .page, isCurrent := false, page := 1 },
       { type := .startEllipsis, isCurrent := false, page := 3 },
       { type := .page, isCurrent := false, page := 4 },
       { type := .page, isCurrent := true, page := 5 },
       { type := .page, isCurrent := false, page := 6 },
       { type := .endEllipsis, isCurrent := false, page := 7 },
       { type := .page, isCurrent := false, page := 10 }]).getLast? = some 10 :=
  output_invariants 10 5 (by decide) (by decide)
    [{ type := .page, isCurrent := false, page := 1 },
     { type := .startEllipsis, isCurrent := false, page := 3 },
     { type := .page, isCurrent := false, page := 4 },
     { type := .page, isCurrent := true, page := 5 },
     { type := .page, isCurrent := false, page := 6 },
     { type := .endEllipsis, isCurrent := false, page := 7 },
     { type := .page, isCurrent := false, page := 10 }] (by decide)

end Pagination
